import Mathlib

/-!
Verification development for the diagtest test harness.

This file gives a shallow embedding of the parts of the code base that the
checked properties talk about:

* `src/diagtest/assertion.py` — the `Message`, `ReturnCode` and `ErrorCode`
  assertion kinds and their `check` methods;
* `src/diagtest/driver.py` — `Test.run` and the `note`/`warning`/`error`/
  `fatal_error` template directives;
* `src/diagtest/compilers/multilingual.py` — `has_standard`,
  `expand_standard`, `filter_standards`, `get_standards` and
  `MultilingualCompiler.__call__`/`__init__`;
* `src/diagtest/compiler.py` — `Compiler.extract_diagnostics` and
  `VersionedCompiler.discover`;
* `src/diagtest/util.py` — `find_executables`.

Python strings become `String`, Python `None` becomes `Option.none`,
exceptions become `Except PyError`, and the external `re` module's
`re.match` (match anchored at the start, no implicit end anchor) is modelled
by a small Brzozowski-derivative matcher over an explicit `Regex` syntax.
-/

/-- Exception kinds raised (or, for `unknownStandard`, merely hypothesised by
the specification) on the code paths modelled here.  The source only ever
constructs `RuntimeError`, `AssertionError`, `IndexError`, `KeyError`,
`ValueError` and `AttributeError` on these paths; no `UnknownStandard`
exception class exists anywhere in the repository. -/
inductive PyError
  | runtimeError (msg : String)
  | assertionError (msg : String)
  | indexError (msg : String)
  | keyError (msg : String)
  | valueError (msg : String)
  | attributeError (msg : String)
  | unknownStandard (msg : String)
  | usageError (msg : String)
deriving DecidableEq

/-! ## A model of `re.match`

`re.match(pattern, s)` returns a match object iff some prefix of `s` is in
the language of `pattern` (anchored at the start, no implicit `$`).  We model
compiled patterns by a regular-expression syntax and matching by Brzozowski
derivatives; `rmatch` below is the model of `re.match(p, s) is not None`. -/

/-- Syntax of regular expressions (the model of a compiled `re.Pattern`). -/
inductive Regex
  | emptyset
  | epsilon
  | char (c : Char)
  | anyChar
  | concat (r₁ r₂ : Regex)
  | alt (r₁ r₂ : Regex)
  | star (r : Regex)
deriving DecidableEq

/-- Does the regular expression accept the empty word? -/
def Regex.nullable : Regex → Bool
  | .emptyset => false
  | .epsilon => true
  | .char _ => false
  | .anyChar => false
  | .concat r₁ r₂ => r₁.nullable && r₂.nullable
  | .alt r₁ r₂ => r₁.nullable || r₂.nullable
  | .star _ => true

/-- Brzozowski derivative of a regular expression by one character. -/
def Regex.deriv : Regex → Char → Regex
  | .emptyset, _ => .emptyset
  | .epsilon, _ => .emptyset
  | .char c, a => if a = c then .epsilon else .emptyset
  | .anyChar, _ => .epsilon
  | .concat r₁ r₂, a =>
    if r₁.nullable then .alt (.concat (r₁.deriv a) r₂) (r₂.deriv a)
    else .concat (r₁.deriv a) r₂
  | .alt r₁ r₂, a => .alt (r₁.deriv a) (r₂.deriv a)
  | .star r, a => .concat (r.deriv a) (.star r)

/-- Whole-word acceptance of a character list. -/
def matchesL (r : Regex) : List Char → Bool
  | [] => r.nullable
  | c :: cs => matchesL (r.deriv c) cs

/-- Acceptance of some prefix of a character list: the semantics of
`re.match` (anchored at the start, no implicit end anchor). -/
def rmatchL (r : Regex) : List Char → Bool
  | [] => r.nullable
  | c :: cs => r.nullable || rmatchL (r.deriv c) cs

/-- Model of `re.match(p, s) is not None`. -/
def rmatch (p : Regex) (s : String) : Bool :=
  rmatchL p s.data

/-! ## Report model (`src/diagtest/report.py`, `src/diagtest/compiler.py`) -/

/-- The closed severity set `Level` of `compiler.py`. -/
inductive Level
  | note
  | warning
  | error
  | fatal_error
deriving DecidableEq

/-- The `Level` enum is keyed by its string value; `Level(value)` raises
`ValueError` on any other string, which this partial inverse reflects as
`none`.  Note `Level.fatal_error.value == "fatal error"`. -/
def Level.ofValue? : String → Option Level
  | "note" => some .note
  | "warning" => some .warning
  | "error" => some .error
  | "fatal error" => some .fatal_error
  | _ => none

/-- `SourceLocation` as actually populated at run time by
`Compiler.extract_diagnostics`: every field is a regex capture, so every
field can be `None` (the dataclass annotations in the source promise
`path : Path`, but the parser passes the raw optional captures through). -/
structure SourceLocation where
  path : Option String
  line : Option String
  column : Option String
deriving DecidableEq

/-- One compiler message: `Diagnostic` of `compiler.py`. -/
structure Diagnostic where
  message : String
  source_location : Option SourceLocation := none
  error_code : Option String := none
deriving DecidableEq

/-- The per-severity buckets of a report.  The source uses
`defaultdict(list)`; a severity never written holds `[]`, which the
total-record representation makes structural. -/
structure Diagnostics where
  note : List Diagnostic := []
  warning : List Diagnostic := []
  error : List Diagnostic := []
  fatal_error : List Diagnostic := []
deriving DecidableEq

/-- `report.diagnostics[level]` (a `defaultdict` lookup, total). -/
def Diagnostics.get (d : Diagnostics) : Level → List Diagnostic
  | .note => d.note
  | .warning => d.warning
  | .error => d.error
  | .fatal_error => d.fatal_error

/-- `report.diagnostics.values()`, as used by `ErrorCode.check`. -/
def Diagnostics.values (d : Diagnostics) : List (List Diagnostic) :=
  [d.note, d.warning, d.error, d.fatal_error]

/-- Outcome of one compiler invocation (`Report`). -/
structure Report where
  name : String
  command : String
  returncode : Int
  stdout : String
  stderr : String
  start_time : Int
  end_time : Int
  diagnostics : Diagnostics := {}
deriving DecidableEq

/-! ## Assertion model (`src/diagtest/assertion.py`) -/

/-- The value stored in `Message.self.text`: either the literal `text`
argument (which may be Python `None`) or the compiled `regex` argument. -/
inductive MsgPayload
  | text (t : Option String)
  | pattern (p : Regex)
deriving DecidableEq

/-- The `Message` assertion: `self.regex = regex is not None`,
`self.text = re.compile(regex) if regex is not None else text`. -/
structure Message where
  regexFlag : Bool
  payload : MsgPayload
  level : Level
deriving DecidableEq

/-- `Message.__init__(level, text=None, regex=None)` — note that it accepts
every combination of `text` and `regex` without validation. -/
def Message.init (level : Level) (text : Option String) (regex : Option Regex) : Message :=
  { regexFlag := regex.isSome
  , payload :=
      match regex with
      | some p => .pattern p
      | none => .text text
  , level := level }

/-- The inner `check_one(message)` of `Message.check`.  In the regex branch
the stored payload is always a pattern (guarded by an `assert` in the
source); in the text branch `self.text == message` compares an optional
string against a string, so a stored `None` text is equal to nothing. -/
def Message.check_one (m : Message) (message : String) : Bool :=
  if m.regexFlag then
    match m.payload with
    | .pattern p => rmatch p message
    | .text _ => false
  else
    match m.payload with
    | .text (some t) => t == message
    | .text none => false
    | .pattern _ => false

/-- `Message.check(result)`:
`any(check_one(d.message) for d in result.diagnostics[self.level])`. -/
def Message.check (m : Message) (result : Report) : Bool :=
  (result.diagnostics.get m.level).any (fun diagnostic => m.check_one diagnostic.message)

/-- The tagged union of assertion kinds bound by the directives. -/
inductive Assertion
  | message (m : Message)
  | returnCode (expected : Int)
  | errorCode (expected : String)
deriving DecidableEq

/-- `Assertion.check` — `Message.check`, `ReturnCode.check`
(`result.returncode == self.expected`) and `ErrorCode.check`
(`any(d.error_code is not None and d.error_code == self.expected ...)`). -/
def Assertion.check : Assertion → Report → Bool
  | .message m, result => m.check result
  | .returnCode expected, result => result.returncode == expected
  | .errorCode expected, result =>
    result.diagnostics.values.any (fun diagnostics =>
      diagnostics.any (fun diagnostic =>
        diagnostic.error_code.isSome && (diagnostic.error_code == some expected)))

/-! ## Test planner (`src/diagtest/driver.py`) -/

/-- The identity of one bound compiler object as `Test.assertions` keys it:
instances with equal fields hash equal, and `available` is the property
consulted by `Test.run` (`True` for a configured `Compiler`, `len != 0` for
a discovery `Collection`). -/
structure Compiler where
  id : Nat
  available : Bool
deriving DecidableEq

/-- Insertion-ordered model of the `defaultdict(list)` held in
`Test.assertions`: appending under an existing compiler key extends that
key's list, a fresh key is appended at the end. -/
def addAssertionList :
    List (Compiler × List Assertion) → Compiler → Assertion →
    List (Compiler × List Assertion)
  | [], c, a => [(c, [a])]
  | (c', as') :: rest, c, a =>
    if c' = c then (c', as' ++ [a]) :: rest
    else (c', as') :: addAssertionList rest c a

/-- One registered `Test` of `driver.py`. -/
structure Test where
  identifier : String
  name : String
  assertions : List (Compiler × List Assertion) := []
deriving DecidableEq

/-- `Test.add_assertion(compiler, assertion)`. -/
def Test.add_assertion (t : Test) (c : Compiler) (a : Assertion) : Test :=
  { t with assertions := addAssertionList t.assertions c a }

/-- `Test.run(source)` with the per-compiler report lists
(`compiler.run_test(source, identifier)`) supplied as `results`.  The body
is the literal control flow of `driver.py:49-72`: a `failed` flag starts
`False`, unavailable compilers are skipped, every assertion is checked
against every report of its compiler without short-circuiting, and the test
passes iff the flag never became `True`. -/
def Test.run (t : Test) (results : Compiler → List Report) : Bool :=
  let failed := t.assertions.foldl (fun failed ca =>
    if !ca.1.available then failed
    else ca.2.foldl (fun failed a =>
      (results ca.1).foldl (fun failed result =>
        if a.check result then failed else true) failed) failed) false
  !failed

/-- The `Parser.note` directive of `driver.py`: binds a `Message` at level
`note` onto the current test, with no validation of `text`/`regex`. -/
def Parser.note (t : Test) (c : Compiler) (text : Option String) (regex : Option Regex) : Test :=
  t.add_assertion c (.message (Message.init .note text regex))

/-- The `Parser.warning` directive of `driver.py`. -/
def Parser.warning (t : Test) (c : Compiler) (text : Option String) (regex : Option Regex) : Test :=
  t.add_assertion c (.message (Message.init .warning text regex))

/-- The `Parser.error` directive of `driver.py`. -/
def Parser.error (t : Test) (c : Compiler) (text : Option String) (regex : Option Regex) : Test :=
  t.add_assertion c (.message (Message.init .error text regex))

/-- The `Parser.fatal_error` directive of `driver.py`. -/
def Parser.fatal_error (t : Test) (c : Compiler) (text : Option String) (regex : Option Regex) : Test :=
  t.add_assertion c (.message (Message.init .fatal_error text regex))

/-! ## Standard-selection algebra (`src/diagtest/compilers/multilingual.py`)

A dialect's standards are an ordered list of alias groups
(`list[tuple[str, ...]]`), modelled as `List (List String)`.  Query terms
are strings or integers (`StdTerm`); whole queries additionally cover lists,
2-tuples (ranges) and `None` (`Query`, `Option Query`). -/

/-- A single query term: Python `str | int`. -/
inductive StdTerm
  | int (n : Int)
  | str (s : String)
deriving DecidableEq

/-- A whole standards query (`standard_query`): a term, a list of terms or a
2-tuple range.  The `assert len(query) == 2` of `get_standards` is made
structural by the two-field `range` constructor. -/
inductive Query
  | str (s : String)
  | int (n : Int)
  | list (terms : List StdTerm)
  | range (lo hi : String)
deriving DecidableEq

/-- `str.startswith` helper: the first character of a string, if any. -/
def strHead? (s : String) : Option Char :=
  s.data.head?

/-- `MultilingualCompiler.has_standard(standard)` restricted to one
dialect's group list:
`any(standard in aliases for aliases in self.standards[self.language])`. -/
def has_standard (groups : List (List String)) (standard : String) : Bool :=
  groups.any (fun aliases => aliases.contains standard)

/-- `MultilingualCompiler.expand_standard(standard)`.  A string that is
already a known alias is returned verbatim; otherwise (and always for an
integer, by the `isinstance` guard) the dialect key is prefixed and the
result re-checked; failing both, the code raises
`RuntimeError(f"Standard {standard} not found in available standards")` —
not any `UnknownStandard`. -/
def expand_standard (language : String) (groups : List (List String)) :
    StdTerm → Except PyError String
  | .str s =>
    if has_standard groups s then Except.ok s
    else
      let expanded := language ++ s
      if has_standard groups expanded then Except.ok expanded
      else Except.error (PyError.runtimeError
        ("Standard " ++ s ++ " not found in available standards"))
  | .int n =>
    let expanded := language ++ toString n
    if has_standard groups expanded then Except.ok expanded
    else Except.error (PyError.runtimeError
      ("Standard " ++ toString n ++ " not found in available standards"))

/-- `MultilingualCompiler.filter_standards(query, standards)`.
`dialectGroups` is `self.standards[self.language]` (consulted by
`expand_standard`), `standards` the list actually sliced (it defaults to the
same list; the range form of `get_standards` passes an already-filtered
list).  `query[0]` and `query[1]` raise `IndexError` on too-short queries,
exactly as the subscripts in the source would. -/
def filter_standards (language : String) (dialectGroups : List (List String))
    (query : String) (standards : List (List String)) :
    Except PyError (List (List String)) :=
  match query.data.head? with
  | none => Except.error (PyError.indexError "string index out of range")
  | some c0 =>
    let greater := c0 == '>'
    match query.data[1]? with
    | none => Except.error (PyError.indexError "string index out of range")
    | some c1 =>
      let incl := c1 == '='
      match expand_standard language dialectGroups
          (StdTerm.str (String.mk (query.data.drop (if incl then 2 else 1)))) with
      | Except.error e => Except.error e
      | Except.ok version =>
        match standards.findIdx? (fun standard => standard.contains version) with
        | none => Except.error (PyError.runtimeError
            ("Could not find value " ++ version ++ " in standards"))
        | some index =>
          let index := index + (if incl != greater then 1 else 0)
          if greater then Except.ok (standards.drop index)
          else Except.ok (standards.take index)

/-- The first-occurrence deduplication `unique(standards) =
[*{s: None for s in standards}.keys()]`, written with an accumulator of
already-seen keys so that it computes structurally. -/
def uniqueAux : List String → List String → List String
  | [], _ => []
  | x :: xs, seen =>
    if seen.contains x then uniqueAux xs seen
    else x :: uniqueAux xs (x :: seen)

/-- `unique(standards)` of `get_standards`. -/
def uniqueList (xs : List String) : List String :=
  uniqueAux xs []

/-- The comprehension `[standard[0] for standard in standards]`; an empty
alias group would raise `IndexError` just as `standard[0]` does. -/
def group_heads : List (List String) → Except PyError (List String)
  | [] => Except.ok []
  | [] :: _ => Except.error (PyError.indexError "tuple index out of range")
  | (x :: _) :: rest =>
    match group_heads rest with
    | Except.error e => Except.error e
    | Except.ok tail => Except.ok (x :: tail)

/-- The inner `flatten(standards)` of `get_standards`:
`unique([standard[0] for standard in standards])`. -/
def flatten (groups : List (List String)) : Except PyError (List String) :=
  match group_heads groups with
  | Except.error e => Except.error e
  | Except.ok heads => Except.ok (uniqueList heads)

/-- The comprehension `[self.expand_standard(standard) for standard in
query]`; the first failing expansion aborts the whole list. -/
def expand_list (language : String) (groups : List (List String)) :
    List StdTerm → Except PyError (List String)
  | [] => Except.ok []
  | t :: ts =>
    match expand_standard language groups t with
    | Except.error e => Except.error e
    | Except.ok v =>
      match expand_list language groups ts with
      | Except.error e => Except.error e
      | Except.ok rest => Except.ok (v :: rest)

/-- `MultilingualCompiler.get_standards(query)`.  Dispatch follows the
source: `None`, list, 2-tuple range (whose bound shapes are `assert`ed, the
first bound checked before the second is subscripted), integer, comparison
string, exact string. -/
def get_standards (language : String) (groups : List (List String)) :
    Option Query → Except PyError (List String)
  | none => flatten groups
  | some (.list terms) =>
    match expand_list language groups terms with
    | Except.error e => Except.error e
    | Except.ok expanded => Except.ok (uniqueList expanded)
  | some (.range lo hi) =>
    (match strHead? lo with
    | none => Except.error (PyError.indexError "string index out of range")
    | some lo0 =>
      if lo0 == '>' then
        match strHead? hi with
        | none => Except.error (PyError.indexError "string index out of range")
        | some hi0 =>
          if hi0 == '<' then
            match filter_standards language groups lo groups with
            | Except.error e => Except.error e
            | Except.ok lower =>
              match filter_standards language groups hi lower with
              | Except.error e => Except.error e
              | Except.ok upper => flatten upper
          else Except.error (PyError.assertionError
            "Specify ranges as ('>minimum', '<maximum')")
      else Except.error (PyError.assertionError
        "Specify ranges as ('>minimum', '<maximum')"))
  | some (.int n) =>
    match expand_standard language groups (.int n) with
    | Except.error e => Except.error e
    | Except.ok v => Except.ok [v]
  | some (.str s) =>
    if strHead? s == some '>' || strHead? s == some '<' then
      match filter_standards language groups s groups with
      | Except.error e => Except.error e
      | Except.ok res => flatten res
    else
      match expand_standard language groups (.str s) with
      | Except.error e => Except.error e
      | Except.ok v => Except.ok [v]

/-! ## `MultilingualCompiler` configuration and cloning
(`src/diagtest/compilers/multilingual.py`, `src/diagtest/compiler.py`) -/

/-- The configuration state a `MultilingualCompiler` instance carries:
`self.language`, `self.selected_standards`, `self.options` (set by the base
`Compiler.__init__`), `self.compiler` (the executable) and `self.standards`
(the probed language→groups map). -/
structure MCConfig where
  language : String
  selected_standards : List String
  options : List String
  compiler : String
  standards : List (String × List (List String))
deriving DecidableEq

/-- `MultilingualCompiler.__init__(language, std, executable, options)`,
with the external probe `get_supported_standards` supplied as a function of
the executable path.  The base `Compiler.__init__` stores
`options or []`; the `assert language in self.standards` guard would, on
failure, raise `AttributeError` while formatting its message (the source
writes `language.name` on a plain string). -/
def mc_init (probe : String → List (String × List (List String)))
    (language : String) (std : Option Query) (executable : String)
    (options : Option (List String)) : Except PyError MCConfig :=
  let options := match options with
    | none => []
    | some o => if o = [] then [] else o
  let standards := probe executable
  match standards.lookup language with
  | none => Except.error (PyError.attributeError "'str' object has no attribute 'name'")
  | some groups =>
    match get_standards language groups std with
    | Except.error e => Except.error e
    | Except.ok selected =>
      Except.ok { language := language
                , selected_standards := selected
                , options := options
                , compiler := executable
                , standards := standards }

/-- Python truthiness of an optional string argument: `None` and `""` are
falsy. -/
def optStrFalsy : Option String → Bool
  | none => true
  | some s => s == ""

/-- Python truthiness of a `standard_query` value: `0`, `""` and `[]` are
falsy; a 2-tuple is a non-empty tuple and always truthy. -/
def queryFalsy : Query → Bool
  | .int n => n == 0
  | .str s => s == ""
  | .list terms => terms.isEmpty
  | .range _ _ => false

/-- Python truthiness of an optional query argument. -/
def optQueryFalsy : Option Query → Bool
  | none => true
  | some q => queryFalsy q

/-- Python truthiness of an optional list argument. -/
def optListFalsy : Option (List String) → Bool
  | none => true
  | some l => l.isEmpty

/-- `x or default` for an optional string argument. -/
def pyOrStr (x : Option String) (default : String) : String :=
  match x with
  | none => default
  | some s => if s == "" then default else s

/-- `std or self.selected_standards` for an optional query argument. -/
def pyOrQuery (x : Option Query) (default : Query) : Query :=
  match x with
  | none => default
  | some q => if queryFalsy q then default else q

/-- `options or self.options` for an optional list argument. -/
def pyOrList (x : Option (List String)) (default : List String) : List String :=
  match x with
  | none => default
  | some l => if l.isEmpty then default else l

/-- `MultilingualCompiler.__call__(language, std, options, executable)`:
every argument is passed through `x or self.<field>` and the result handed
to the constructor, so any falsy argument falls back to the existing
configuration. -/
def mc_call (probe : String → List (String × List (List String)))
    (cfg : MCConfig) (language : Option String) (std : Option Query)
    (options : Option (List String)) (executable : Option String) :
    Except PyError MCConfig :=
  mc_init probe
    (pyOrStr language cfg.language)
    (some (pyOrQuery std (Query.list (cfg.selected_standards.map StdTerm.str))))
    (pyOrStr executable cfg.compiler)
    (some (pyOrList options cfg.options))

/-! ## Diagnostic extraction (`src/diagtest/compiler.py:128-145`)

`re.Match.groupdict()` maps every named group of the pattern — participating
or not — to its capture (`None` for a group that did not participate).  The
dict for one matched line is modelled as an association list from group name
to optional capture; `"path" in parts` is key membership, exactly as in the
source. -/

/-- The `groupdict()` of one successful line match. -/
abbrev GroupDict := List (String × Option String)

/-- Python `key in parts`. -/
def dictHasKey (parts : GroupDict) (key : String) : Bool :=
  (parts.lookup key).isSome

/-- Python `parts[key]` / `parts.get(key, None)` for the guarded uses in
`extract_diagnostics` (both collapse to the capture, `None` when the key is
absent or the group did not participate). -/
def dictItem (parts : GroupDict) (key : String) : Option String :=
  (parts.lookup key).join

/-- The body of the `extract_diagnostics` loop for one matched line.  The
`SourceLocation` is built whenever the *pattern* has a `path` group
(`"path" in parts`), regardless of whether that group captured anything;
`level` goes through the `Level` enum (`ValueError` on an unknown value);
`error_code` is `parts.get("error_code", None)` verbatim.  Every diagnostic
pattern in the repository has `level` and `message` groups that participate
in every match; a dict without them is mapped to the error the missing
subscript would raise. -/
def extract_one (parts : GroupDict) : Except PyError (Level × Diagnostic) :=
  let source_location : Option SourceLocation :=
    if dictHasKey parts "path" then
      some { path := dictItem parts "path"
           , line := dictItem parts "line"
           , column := dictItem parts "column" }
    else none
  match dictItem parts "level" with
  | none => Except.error (PyError.valueError "None is not a valid Level")
  | some lv =>
    match Level.ofValue? lv with
    | none => Except.error (PyError.valueError (lv ++ " is not a valid Level"))
    | some level =>
      match dictItem parts "message" with
      | none => Except.error (PyError.keyError "message")
      | some message =>
        Except.ok (level, { message := message
                          , source_location := source_location
                          , error_code := dictItem parts "error_code" })

/-- `Compiler.extract_diagnostics(lines)` over the per-line match results:
a line that did not match the pattern (`none`) is discarded, every matched
line contributes one diagnostic in order. -/
def extract_diagnostics : List (Option GroupDict) → Except PyError (List (Level × Diagnostic))
  | [] => Except.ok []
  | none :: rest => extract_diagnostics rest
  | some parts :: rest =>
    match extract_one parts with
    | Except.error e => Except.error e
    | Except.ok d =>
      match extract_diagnostics rest with
      | Except.error e => Except.error e
      | Except.ok ds => Except.ok (d :: ds)

/-! ## Executable discovery (`src/diagtest/util.py:8-19`,
`src/diagtest/compiler.py:235-248`) -/

/-- One directory entry on `PATH`: its file name and the target of
`Path.resolve()` (the entry itself when it is not a symlink). -/
structure DirEntry where
  name : String
  resolved : String
deriving DecidableEq

/-- One directory listed on `PATH`; `pathExists` models `path.exists()`. -/
structure PathDir where
  pathExists : Bool
  entries : List DirEntry
deriving DecidableEq

/-- `find_executables(query)`: walk every existing `PATH` directory, keep
entries whose *name* matches the query, and yield each one's resolved path.
Nothing deduplicates the yielded paths. -/
def find_executables (paths : List PathDir) (query : String → Bool) : List String :=
  (paths.map (fun path =>
    if !path.pathExists then []
    else (path.entries.filter (fun file => query file.name)).map
      (fun file => file.resolved))).flatten

/-- One probed toolchain candidate (`CompilerInfo`). -/
structure CompilerInfo where
  executable : String
  version : String
  target : String
deriving DecidableEq

/-- `VersionedCompiler.discover()` with the version probe supplied as a
function: every executable `find_executables` yields is probed; a probe
missing `version` or `target` logs a warning and skips the candidate, every
other candidate is appended in order. -/
def discover (paths : List PathDir) (query : String → Bool)
    (get_version : String → Option (String × String)) : List CompilerInfo :=
  (find_executables paths query).filterMap (fun executable =>
    (get_version executable).map (fun vt =>
      { executable := executable, version := vt.1, target := vt.2 }))

/-! ## Helper lemmas -/

/-- Prefix matching by derivatives agrees with whole-word matching of some
`take`-prefix: the formal content of "anchored at the start, no implicit end
anchor". -/
theorem rmatchL_iff (p : Regex) (s : List Char) :
    rmatchL p s = true ↔ ∃ n : Nat, matchesL p (s.take n) = true := by
  induction s generalizing p with
  | nil =>
    simp only [rmatchL, List.take_nil]
    constructor
    · intro h
      exact ⟨0, h⟩
    · rintro ⟨n, h⟩
      exact h
  | cons c cs ih =>
    simp only [rmatchL, Bool.or_eq_true]
    constructor
    · rintro (h | h)
      · exact ⟨0, h⟩
      · obtain ⟨n, hn⟩ := (ih (p.deriv c)).mp h
        exact ⟨n + 1, hn⟩
    · rintro ⟨n, hn⟩
      match n with
      | 0 => exact Or.inl hn
      | m + 1 =>
        right
        exact (ih (p.deriv c)).mpr ⟨m, hn⟩

/-! ## C1 — `Message.check` semantics -/

/-- C1.  A `Message` assertion built from a literal text `t` passes on a
report iff some diagnostic in the report's bucket for the assertion's
severity has a message byte-equal to `t`; one built from a regex `p` passes
iff some diagnostic in that bucket has a message of which some prefix is
accepted by `p` (match anchored at the start, no implicit end anchor). -/
theorem message_check_text_and_regex_spec (lvl : Level) (t : String) (p : Regex) (r : Report) :
    ((Message.init lvl (some t) none).check r = true
        ↔ ∃ d ∈ r.diagnostics.get lvl, d.message = t)
    ∧ ((Message.init lvl none (some p)).check r = true
        ↔ ∃ d ∈ r.diagnostics.get lvl,
            ∃ n : Nat, matchesL p (d.message.data.take n) = true) := by
  constructor
  · simp only [Message.check, Message.init, Message.check_one, Option.isSome_none,
      Bool.false_eq_true, if_false, List.any_eq_true, beq_iff_eq]
    constructor
    · rintro ⟨d, hd, h⟩
      exact ⟨d, hd, h.symm⟩
    · rintro ⟨d, hd, h⟩
      exact ⟨d, hd, h.symm⟩
  · simp only [Message.check, Message.init, Message.check_one, Option.isSome_some,
      if_true, List.any_eq_true, rmatch, rmatchL_iff]

/-! ## C9 — a `Message` with neither text nor regex never passes -/

/-- C9.  `Message(level)` (both `text` and `regex` left `None`) is accepted
without any error — the constructor performs no validation — and its `check`
is `False` on every report: the stored `None` text is byte-equal to no
diagnostic message. -/
theorem message_none_never_passes (lvl : Level) (r : Report) :
    (Message.init lvl none none).check r = false := by
  simp [Message.check, Message.init, Message.check_one]

/-! ## C3 — the severity directives perform no `text`/`regex` validation -/

/-- C3 (counterexample).  The claim says a directive invoked with both
`text` and `regex`, or with neither, raises `UsageError`.  It does not: in
both cases `Parser.error` returns normally and binds one `Message` assertion
onto the test — with both arguments the regex wins and the text is dropped,
with neither the assertion stores a `None` text. -/
theorem message_directive_no_usage_error_counterexample :
    (Parser.error { identifier := "T", name := "t" } { id := 0, available := true }
        (some "abc") (some (Regex.char 'a'))).assertions
      = [({ id := 0, available := true },
          [Assertion.message (Message.init Level.error (some "abc") (some (Regex.char 'a')))])]
    ∧ (Parser.error { identifier := "T", name := "t" } { id := 0, available := true }
        none none).assertions
      = [({ id := 0, available := true },
          [Assertion.message (Message.init Level.error none none)])] := by
  constructor <;> rfl

/-- C3 (amended).  Each severity directive binds its `Message` assertion
unconditionally, for every combination of `text` and `regex`: the new
assertion is appended under the compiler key, the stored regex flag is
exactly `regex is not None`, and when a regex is supplied the `text`
argument is ignored entirely. -/
theorem message_directives_bind_without_validation
    (t : Test) (c : Compiler) (text : Option String) (regex : Option Regex) (p : Regex) :
    (Parser.note t c text regex).assertions
        = addAssertionList t.assertions c (.message (Message.init .note text regex))
    ∧ (Parser.warning t c text regex).assertions
        = addAssertionList t.assertions c (.message (Message.init .warning text regex))
    ∧ (Parser.error t c text regex).assertions
        = addAssertionList t.assertions c (.message (Message.init .error text regex))
    ∧ (Parser.fatal_error t c text regex).assertions
        = addAssertionList t.assertions c (.message (Message.init .fatal_error text regex))
    ∧ (Message.init .error text regex).regexFlag = regex.isSome
    ∧ Message.init .error text (some p) = Message.init .error none (some p) := by
  refine ⟨rfl, rfl, rfl, rfl, rfl, rfl⟩

/-! ## C2 — `Test.run` aggregation -/

/-- Folding the per-report check loop accumulates the `failed` flag as a
disjunction. -/
theorem foldl_fail_reports (a : Assertion) (l : List Report) (b : Bool) :
    l.foldl (fun failed result => if a.check result then failed else true) b
      = (b || l.any (fun result => !(a.check result))) := by
  induction l generalizing b with
  | nil => simp
  | cons r rest ih =>
    simp only [List.foldl_cons, List.any_cons, ih]
    cases h : a.check r <;> simp [h]

/-- Folding the per-assertion loop accumulates the `failed` flag as a
disjunction. -/
theorem foldl_fail_asserts (results : Compiler → List Report) (c : Compiler)
    (l : List Assertion) (b : Bool) :
    l.foldl (fun failed a =>
        (results c).foldl (fun failed result =>
          if a.check result then failed else true) failed) b
      = (b || l.any (fun a => (results c).any (fun result => !(a.check result)))) := by
  induction l generalizing b with
  | nil => simp
  | cons a rest ih =>
    rw [List.foldl_cons, ih, foldl_fail_reports, List.any_cons]
    cases b <;> simp [Bool.or_assoc]

/-- Folding the per-compiler loop (with its availability guard) accumulates
the `failed` flag as a disjunction. -/
theorem foldl_fail_entries (results : Compiler → List Report)
    (l : List (Compiler × List Assertion)) (b : Bool) :
    l.foldl (fun failed ca =>
        if !ca.1.available then failed
        else ca.2.foldl (fun failed a =>
          (results ca.1).foldl (fun failed result =>
            if a.check result then failed else true) failed) failed) b
      = (b || l.any (fun ca =>
          ca.1.available && ca.2.any (fun a =>
            (results ca.1).any (fun result => !(a.check result))))) := by
  induction l generalizing b with
  | nil => simp
  | cons ca rest ih =>
    rw [List.foldl_cons, ih, List.any_cons]
    cases h : ca.1.available with
    | false => simp [h]
    | true =>
      simp only [h, Bool.not_true, Bool.false_eq_true, if_false, foldl_fail_asserts,
        Bool.true_and]
      cases b <;> simp [Bool.or_assoc]

/-- `Test.run` is the negation of "some available compiler has some
assertion that fails on some of its reports". -/
theorem test_run_eq_any (t : Test) (results : Compiler → List Report) :
    t.run results
      = !(t.assertions.any (fun ca =>
          ca.1.available
            && ca.2.any (fun a => (results ca.1).any (fun result => !(a.check result))))) := by
  simp only [Test.run]
  rw [foldl_fail_entries]
  simp

/-- C2.  `Test.run` returns `true` iff every assertion bound to every
available compiler checks `true` against every report produced for that
compiler; assertions are all evaluated (no short-circuit changes the
outcome) and an unavailable compiler's assertions are skipped without
failing the test. -/
theorem test_run_pass_iff (t : Test) (results : Compiler → List Report) :
    t.run results = true ↔
      ∀ ca ∈ t.assertions, ca.1.available = true →
        ∀ a ∈ ca.2, ∀ result ∈ results ca.1, a.check result = true := by
  rw [test_run_eq_any]
  simp only [Bool.not_eq_true', List.any_eq_false]
  constructor
  · intro h ca hca hav a ha result hresult
    by_contra hfail
    apply h ca hca
    rw [hav, Bool.true_and]
    refine List.any_eq_true.mpr ⟨a, ha, ?_⟩
    refine List.any_eq_true.mpr ⟨result, hresult, ?_⟩
    simp [Bool.not_eq_true] at hfail ⊢
    exact hfail
  · intro h ca hca hco
    rw [Bool.and_eq_true] at hco
    have hav : ca.1.available = true := hco.1
    have hany := hco.2
    obtain ⟨a, ha, hx⟩ := List.any_eq_true.mp hany
    obtain ⟨result, hresult, hy⟩ := List.any_eq_true.mp hx
    have hcheck := h ca hca hav a ha result hresult
    simp [hcheck] at hy

/-! ## C7 — a matched line with no location prefix still gets a
`SourceLocation` -/

/-- C7 (evaluation at the failing input).  The GCC/Clang pattern matches the
bare line `"error: foo"` with `groupdict()` equal to
`{path: None, line: None, column: None, level: 'error', message: 'foo'}`.
Because `"path" in parts` tests *key* membership and the pattern always
defines a `path` group, the parser attaches
`SourceLocation(path=None, line=None, column=None)` to the diagnostic
instead of omitting the location. -/
theorem extract_one_unmatched_path_still_builds_location :
    extract_one
        [("path", none), ("line", none), ("column", none),
         ("level", some "error"), ("message", some "foo")]
      = Except.ok (Level.error,
          { message := "foo"
          , source_location := some { path := none, line := none, column := none }
          , error_code := none }) := by
  rfl

/-! ## C8 — discovery keeps symlink duplicates -/

/-- C8 (evaluation at the failing input).  One `PATH` directory holding
`gcc` (a symlink whose target resolves to `/usr/bin/gcc-13`) and `gcc-13`
itself: both names match the GCC executable pattern, both resolve to the
same real path, and neither `find_executables` nor
`VersionedCompiler.discover` deduplicates, so the resolved path appears
twice in the candidate list. -/
theorem find_executables_keeps_symlink_duplicates :
    find_executables
        [{ pathExists := true
         , entries := [{ name := "gcc", resolved := "/usr/bin/gcc-13" },
                       { name := "gcc-13", resolved := "/usr/bin/gcc-13" }] }]
        (fun name => name == "gcc" || name == "gcc-13")
      = ["/usr/bin/gcc-13", "/usr/bin/gcc-13"]
    ∧ discover
        [{ pathExists := true
         , entries := [{ name := "gcc", resolved := "/usr/bin/gcc-13" },
                       { name := "gcc-13", resolved := "/usr/bin/gcc-13" }] }]
        (fun name => name == "gcc" || name == "gcc-13")
        (fun _ => some ("13.2.0", "x86_64-linux-gnu"))
      = [{ executable := "/usr/bin/gcc-13", version := "13.2.0", target := "x86_64-linux-gnu" },
         { executable := "/usr/bin/gcc-13", version := "13.2.0", target := "x86_64-linux-gnu" }] := by
  constructor <;> rfl

/-! ## C4 — `expand_standard` rules and its failure exception -/

/-- C4 (counterexample).  The claim says a term matching neither verbatim
nor with the dialect prefix fails with `UnknownStandard`.  Under the `c++`
dialect with alias groups `[("c++17", "gnu++17")]`, the term `"14"` fails —
but with `RuntimeError("Standard 14 not found in available standards")`;
there is no `UnknownStandard` anywhere in the repository
(`exceptions.py` defines only `UsageError`). -/
theorem expand_standard_runtime_error_counterexample :
    expand_standard "c++" [["c++17", "gnu++17"]] (StdTerm.str "14")
        = Except.error (PyError.runtimeError "Standard 14 not found in available standards")
    ∧ expand_standard "c++" [["c++17", "gnu++17"]] (StdTerm.str "14")
        ≠ Except.error (PyError.unknownStandard "Standard 14 not found in available standards") := by
  constructor
  · rfl
  · intro h
    exact PyError.noConfusion (Except.error.inj h)

/-- C4 (amended).  For every dialect and query term: a string term that is
already a known alias of some group is returned verbatim; otherwise the
dialect key is prefixed (always so for an integer term, whose rendered
digits are prefixed directly) and the result returned when that form is a
known alias; when neither matches, expansion fails with `RuntimeError` —
not `UnknownStandard`, which does not exist in the code base. -/
theorem expand_standard_expansion_spec (language : String)
    (groups : List (List String)) (q : String) :
    (has_standard groups q = true →
        expand_standard language groups (StdTerm.str q) = Except.ok q)
    ∧ (has_standard groups q = false → has_standard groups (language ++ q) = true →
        expand_standard language groups (StdTerm.str q) = Except.ok (language ++ q))
    ∧ (has_standard groups q = false → has_standard groups (language ++ q) = false →
        expand_standard language groups (StdTerm.str q)
          = Except.error (PyError.runtimeError
              ("Standard " ++ q ++ " not found in available standards")))
    ∧ (∀ n : Int, has_standard groups (language ++ toString n) = true →
        expand_standard language groups (StdTerm.int n)
          = Except.ok (language ++ toString n))
    ∧ (∀ n : Int, has_standard groups (language ++ toString n) = false →
        expand_standard language groups (StdTerm.int n)
          = Except.error (PyError.runtimeError
              ("Standard " ++ toString n ++ " not found in available standards"))) := by
  refine ⟨?_, ?_, ?_, ?_, ?_⟩
  · intro h
    simp [expand_standard, h]
  · intro h h'
    simp [expand_standard, h, h']
  · intro h h'
    simp [expand_standard, h, h']
  · intro n h
    simp [expand_standard, h]
  · intro n h
    simp [expand_standard, h]

/-- C4 (witness).  Under `c++` with groups `[("c++17", "gnu++17")]` the term
`"17"` is not an alias itself but `"c++" ++ "17"` is, so expansion returns
the prefixed form. -/
theorem expand_standard_expansion_spec_witness :
    expand_standard "c++" [["c++17", "gnu++17"]] (StdTerm.str "17")
      = Except.ok ("c++" ++ "17") :=
  (expand_standard_expansion_spec "c++" [["c++17", "gnu++17"]] "17").2.1
    (by decide) (by decide)

/-! ## C5 — open comparison queries slice at the group of the expanded
bound -/

/-- A successful `findIdx?` exhibits a satisfying element. -/
theorem exists_mem_of_findIdx?_eq_some {α : Type} {p : α → Bool} {l : List α} {i : Nat}
    (h : l.findIdx? p = some i) : ∃ x ∈ l, p x = true := by
  by_contra hne
  push_neg at hne
  have hnone : l.findIdx? p = none :=
    List.findIdx?_eq_none_iff.mpr (fun x hx => by simpa using hne x hx)
  rw [hnone] at h
  cases h

/-- A term that is already a known alias expands to itself. -/
theorem expand_standard_verbatim (language : String) (groups : List (List String))
    (s : String) (h : has_standard groups s = true) :
    expand_standard language groups (StdTerm.str s) = Except.ok s := by
  simp [expand_standard, h]

/-- C5.  For a dialect's ordered alias-group list `S` and a standard `N`
occurring in `S` (first at group index `i`), the four open comparisons slice
`S` around that group: `">=N"` keeps the suffix from the group on, `">N"`
the groups strictly after it, `"<=N"` the prefix up to and including it, and
`"<N"` the groups strictly before it.  (`N` is assumed non-empty and not to
begin with `'='`, as every real standard name is; a degenerate name would
change how `query[1]` parses.) -/
theorem filter_standards_open_comparison_spec (language : String)
    (S : List (List String)) (N : String) (i : Nat)
    (hfind : S.findIdx? (fun g => g.contains N) = some i)
    (hne : N.data ≠ [])
    (heq : N.data.head? ≠ some '=') :
    filter_standards language S (">=" ++ N) S = Except.ok (S.drop i)
    ∧ filter_standards language S (">" ++ N) S = Except.ok (S.drop (i + 1))
    ∧ filter_standards language S ("<=" ++ N) S = Except.ok (S.take (i + 1))
    ∧ filter_standards language S ("<" ++ N) S = Except.ok (S.take i) := by
  obtain ⟨g, hg, hcont⟩ := exists_mem_of_findIdx?_eq_some hfind
  have hhas : has_standard S N = true := List.any_eq_true.mpr ⟨g, hg, hcont⟩
  have hexp := expand_standard_verbatim language S N hhas
  obtain ⟨c, cs, hN⟩ : ∃ c cs, N.data = c :: cs := by
    cases h : N.data with
    | nil => exact absurd h hne
    | cons c cs => exact ⟨c, cs, rfl⟩
  rw [hN] at heq
  have hc : (c == '=') = false := by
    simp only [List.head?_cons, ne_eq, Option.some.injEq] at heq
    exact beq_eq_false_iff_ne.mpr heq
  have hmk : String.mk N.data = N := rfl
  refine ⟨?_, ?_, ?_, ?_⟩
  · have h1 : ((">=" : String) ++ N).data = '>' :: '=' :: N.data := rfl
    unfold filter_standards
    rw [h1]
    simp only [List.head?_cons, List.getElem?_cons_succ, List.getElem?_cons_zero,
      beq_self_eq_true, if_true, List.drop_succ_cons, List.drop_zero, hmk, hexp, hfind,
      bne_self_eq_false, if_false, Nat.add_zero]
    rfl
  · have h1 : ((">" : String) ++ N).data = '>' :: N.data := rfl
    unfold filter_standards
    rw [h1, hN]
    simp only [List.head?_cons, List.getElem?_cons_succ, List.getElem?_cons_zero,
      beq_self_eq_true, hc, Bool.false_eq_true, if_false, List.drop_succ_cons,
      List.drop_zero, if_true]
    rw [show (c :: cs : List Char) = N.data from hN.symm, hmk]
    simp only [hexp, hfind]
    rfl
  · have h1 : (("<=" : String) ++ N).data = '<' :: '=' :: N.data := rfl
    unfold filter_standards
    rw [h1]
    simp only [List.head?_cons, List.getElem?_cons_succ, List.getElem?_cons_zero,
      beq_self_eq_true, if_true, List.drop_succ_cons, List.drop_zero, hmk, hexp, hfind]
    rfl
  · have h1 : (("<" : String) ++ N).data = '<' :: N.data := rfl
    unfold filter_standards
    rw [h1, hN]
    simp only [List.head?_cons, List.getElem?_cons_succ, List.getElem?_cons_zero,
      hc, Bool.false_eq_true, if_false, List.drop_succ_cons, List.drop_zero]
    rw [show (c :: cs : List Char) = N.data from hN.symm, hmk]
    simp only [hexp, hfind]
    rfl

/-- C5 (witness).  With groups `[("c++14"), ("c++17", "gnu++17"),
("c++20")]` and bound `"c++17"` (index 1), `">=c++17"` keeps the last two
groups. -/
theorem filter_standards_open_comparison_spec_witness :
    filter_standards "c++" [["c++14"], ["c++17", "gnu++17"], ["c++20"]]
        (">=" ++ "c++17") [["c++14"], ["c++17", "gnu++17"], ["c++20"]]
      = Except.ok [["c++17", "gnu++17"], ["c++20"]] :=
  (filter_standards_open_comparison_spec "c++"
    [["c++14"], ["c++17", "gnu++17"], ["c++20"]] "c++17" 1
    (by decide) (by decide) (by decide)).1

/-! ## C6 — idempotence of standards resolution -/

/-- Membership survives first-occurrence deduplication. -/
theorem mem_of_mem_uniqueAux {a : String} :
    ∀ {xs seen : List String}, a ∈ uniqueAux xs seen → a ∈ xs := by
  intro xs
  induction xs with
  | nil => intro seen h; simp [uniqueAux] at h
  | cons x xs ih =>
    intro seen h
    rw [uniqueAux] at h
    by_cases hx : seen.contains x = true
    · rw [if_pos hx] at h
      exact List.mem_cons_of_mem x (ih h)
    · rw [if_neg hx] at h
      rcases List.mem_cons.mp h with rfl | h'
      · exact List.mem_cons_self a xs
      · exact List.mem_cons_of_mem x (ih h')

/-- The deduplicated list avoids the seen accumulator and has no
duplicates. -/
theorem uniqueAux_spec :
    ∀ (xs seen : List String),
      (∀ a ∈ uniqueAux xs seen, a ∉ seen) ∧ (uniqueAux xs seen).Nodup := by
  intro xs
  induction xs with
  | nil => intro seen; simp [uniqueAux]
  | cons x xs ih =>
    intro seen
    rw [uniqueAux]
    by_cases hx : seen.contains x = true
    · rw [if_pos hx]
      exact ih seen
    · rw [if_neg hx]
      obtain ⟨hnotin, hnodup⟩ := ih (x :: seen)
      have hxseen : x ∉ seen := by
        intro hmem
        exact hx (List.elem_iff.mpr hmem)
      constructor
      · intro a ha
        rcases List.mem_cons.mp ha with rfl | ha'
        · exact hxseen
        · intro hseen
          exact hnotin a ha' (List.mem_cons_of_mem x hseen)
      · rw [List.nodup_cons]
        constructor
        · intro hmem
          exact hnotin x hmem (List.mem_cons_self x seen)
        · exact hnodup

/-- Deduplication fixes a duplicate-free list disjoint from the seen
accumulator. -/
theorem uniqueAux_eq_self :
    ∀ (xs seen : List String), xs.Nodup → (∀ a ∈ xs, a ∉ seen) →
      uniqueAux xs seen = xs := by
  intro xs
  induction xs with
  | nil => intro seen _ _; rfl
  | cons x xs ih =>
    intro seen hnodup hdisj
    rw [uniqueAux]
    have hx : ¬ seen.contains x = true := by
      intro hc
      exact hdisj x (List.mem_cons_self x xs) (List.elem_iff.mp hc)
    rw [if_neg hx]
    congr 1
    apply ih (x :: seen) (List.nodup_cons.mp hnodup).2
    intro a ha hmem
    rcases List.mem_cons.mp hmem with rfl | hmem'
    · exact (List.nodup_cons.mp hnodup).1 ha
    · exact hdisj a (List.mem_cons_of_mem x ha) hmem'

/-- `unique` is idempotent. -/
theorem uniqueList_fix (xs : List String) :
    uniqueList (uniqueList xs) = uniqueList xs := by
  apply uniqueAux_eq_self _ _ (uniqueAux_spec xs []).2
  intro a _ h
  cases h

/-- A successful `group_heads` takes each element from some group. -/
theorem group_heads_ok_mem :
    ∀ {gs : List (List String)} {hs : List String},
      group_heads gs = Except.ok hs → ∀ x ∈ hs, ∃ g ∈ gs, x ∈ g := by
  intro gs
  induction gs with
  | nil =>
    intro hs h x hx
    rw [group_heads] at h
    cases h
    cases hx
  | cons g gs ih =>
    intro hs h x hx
    cases g with
    | nil => rw [group_heads] at h; cases h
    | cons y ys =>
      rw [group_heads] at h
      split at h
      · cases h
      · rename_i tail htail
        cases h
        rcases List.mem_cons.mp hx with rfl | hx'
        · exact ⟨_, List.mem_cons_self _ _, List.mem_cons_self _ _⟩
        · obtain ⟨g', hg', hxg'⟩ := ih htail x hx'
          exact ⟨g', List.mem_cons_of_mem _ hg', hxg'⟩

/-- A successful `flatten` yields a deduplication-fixed list of group
members. -/
theorem flatten_ok_spec {gs : List (List String)} {L : List String}
    (h : flatten gs = Except.ok L) :
    (∀ x ∈ L, ∃ g ∈ gs, x ∈ g) ∧ uniqueList L = L := by
  rw [flatten] at h
  cases hh : group_heads gs with
  | error e => rw [hh] at h; cases h
  | ok heads =>
    rw [hh] at h
    cases h
    constructor
    · intro x hx
      exact group_heads_ok_mem hh x (mem_of_mem_uniqueAux hx)
    · exact uniqueList_fix heads

/-- Membership in a group of the dialect makes a name a known alias. -/
theorem has_standard_of_group_mem {gs : List (List String)} {g : List String}
    {x : String} (hg : g ∈ gs) (hx : x ∈ g) : has_standard gs x = true :=
  List.any_eq_true.mpr ⟨g, hg, List.elem_iff.mpr hx⟩

/-- Whatever `expand_standard` returns is a known alias. -/
theorem expand_ok_has {language : String} {gs : List (List String)}
    {t : StdTerm} {v : String}
    (h : expand_standard language gs t = Except.ok v) :
    has_standard gs v = true := by
  cases t with
  | str s =>
    rw [expand_standard] at h
    by_cases hs : has_standard gs s = true
    · rw [if_pos hs] at h
      cases h
      exact hs
    · rw [if_neg hs] at h
      by_cases hp : has_standard gs (language ++ s) = true
      · rw [if_pos hp] at h
        cases h
        exact hp
      · rw [if_neg hp] at h
        cases h
  | int n =>
    rw [expand_standard] at h
    by_cases hp : has_standard gs (language ++ toString n) = true
    · rw [if_pos hp] at h
      cases h
      exact hp
    · rw [if_neg hp] at h
      cases h

/-- Every element of a successful `expand_list` is a known alias. -/
theorem expand_list_ok_has {language : String} {gs : List (List String)} :
    ∀ {ts : List StdTerm} {es : List String},
      expand_list language gs ts = Except.ok es →
      ∀ v ∈ es, has_standard gs v = true := by
  intro ts
  induction ts with
  | nil =>
    intro es h v hv
    rw [expand_list] at h
    cases h
    cases hv
  | cons t ts ih =>
    intro es h v hv
    rw [expand_list] at h
    cases hhd : expand_standard language gs t with
    | error e => rw [hhd] at h; cases h
    | ok w =>
      rw [hhd] at h
      cases htl : expand_list language gs ts with
      | error e => rw [htl] at h; cases h
      | ok rest =>
        rw [htl] at h
        cases h
        rcases List.mem_cons.mp hv with rfl | hv'
        · exact expand_ok_has hhd
        · exact ih htl v hv'

/-- A list of already-known aliases expands to itself. -/
theorem expand_list_roundtrip {language : String} {gs : List (List String)} :
    ∀ {L : List String}, (∀ s ∈ L, has_standard gs s = true) →
      expand_list language gs (L.map StdTerm.str) = Except.ok L := by
  intro L
  induction L with
  | nil => intro _; rfl
  | cons s L ih =>
    intro h
    rw [List.map_cons, expand_list,
      expand_standard_verbatim language gs s (h s (List.mem_cons_self s L)),
      ih (fun a ha => h a (List.mem_cons_of_mem s ha))]

/-- A successful `filter_standards` returns a sub-slice of the list it
filtered. -/
theorem filter_standards_ok_mem {language : String} {dg st res : List (List String)}
    {q : String} (h : filter_standards language dg q st = Except.ok res) :
    ∀ g ∈ res, g ∈ st := by
  rw [filter_standards] at h
  split at h
  · cases h
  · split at h
    · cases h
    · dsimp only at h
      split at h
      · cases h
      · split at h
        · cases h
        · split at h
          · cases h
            intro g hg
            exact List.drop_subset _ st hg
          · cases h
            intro g hg
            exact List.take_subset _ st hg

/-- Every successful resolution yields a deduplication-fixed list of known
aliases. -/
theorem get_standards_ok_spec {language : String} {groups : List (List String)}
    {q : Option Query} {L : List String}
    (h : get_standards language groups q = Except.ok L) :
    (∀ s ∈ L, has_standard groups s = true) ∧ uniqueList L = L := by
  match q with
  | none =>
    rw [get_standards] at h
    obtain ⟨hmem, hfix⟩ := flatten_ok_spec h
    exact ⟨fun s hs => by
      obtain ⟨g, hg, hsg⟩ := hmem s hs
      exact has_standard_of_group_mem hg hsg, hfix⟩
  | some (.list terms) =>
    rw [get_standards] at h
    cases he : expand_list language groups terms with
    | error e => rw [he] at h; cases h
    | ok es =>
      rw [he] at h
      cases h
      exact ⟨fun s hs => expand_list_ok_has he s (mem_of_mem_uniqueAux hs),
        uniqueList_fix es⟩
  | some (.range lo hi) =>
    rw [get_standards] at h
    split at h
    · cases h
    · split at h
      · split at h
        · cases h
        · split at h
          · split at h
            · cases h
            · rename_i lower hlow
              split at h
              · cases h
              · rename_i upper hup
                obtain ⟨hmem, hfix⟩ := flatten_ok_spec h
                refine ⟨fun s hs => ?_, hfix⟩
                obtain ⟨g, hg, hsg⟩ := hmem s hs
                have hg' : g ∈ groups :=
                  filter_standards_ok_mem hlow g (filter_standards_ok_mem hup g hg)
                exact has_standard_of_group_mem hg' hsg
          · cases h
      · cases h
  | some (.int n) =>
    rw [get_standards] at h
    split at h
    · cases h
    · rename_i v he
      cases h
      refine ⟨fun s hs => ?_, rfl⟩
      rcases List.mem_singleton.mp hs with rfl
      exact expand_ok_has he
  | some (.str s) =>
    rw [get_standards] at h
    split at h
    · split at h
      · cases h
      · rename_i res hf
        obtain ⟨hmem, hfix⟩ := flatten_ok_spec h
        refine ⟨fun x hx => ?_, hfix⟩
        obtain ⟨g, hg, hxg⟩ := hmem x hx
        exact has_standard_of_group_mem (filter_standards_ok_mem hf g hg) hxg
    · split at h
      · cases h
      · rename_i v he
        cases h
        refine ⟨fun x hx => ?_, rfl⟩
        rcases List.mem_singleton.mp hx with rfl
        exact expand_ok_has he

/-- C6.  If resolving a query against a dialect's standards yields the
concrete list `L`, then resolving again with `L` supplied as a list query
yields exactly `L`: every name in `L` is a known alias (so it expands
verbatim) and `L` is already deduplicated. -/
theorem get_standards_idempotent (language : String) (groups : List (List String))
    (q : Option Query) (L : List String)
    (h : get_standards language groups q = Except.ok L) :
    get_standards language groups (some (Query.list (L.map StdTerm.str)))
      = Except.ok L := by
  obtain ⟨hmem, hfix⟩ := get_standards_ok_spec h
  rw [get_standards, expand_list_roundtrip hmem]
  simp only [hfix]

/-- C6 (witness).  Resolving `">=14"` under `c++` against
`[("c++14"), ("c++17", "gnu++17"), ("c++20")]` yields
`["c++14", "c++17", "c++20"]`; resolving that list again returns it
unchanged. -/
theorem get_standards_idempotent_witness :
    get_standards "c++" [["c++14"], ["c++17", "gnu++17"], ["c++20"]]
        (some (Query.list (["c++14", "c++17", "c++20"].map StdTerm.str)))
      = Except.ok ["c++14", "c++17", "c++20"] :=
  get_standards_idempotent "c++" [["c++14"], ["c++17", "gnu++17"], ["c++20"]]
    (some (Query.str ">=14")) ["c++14", "c++17", "c++20"] (by rfl)

/-! ## C10 — falsy `__call__` arguments fall back to the existing
configuration -/

/-- C10.  Cloning a configured `MultilingualCompiler` with every argument
falsy (`None`, `""`, `0`-like or `[]` — in particular `options=[]`) passes
the stored configuration to the constructor unchanged: the clone is built
from `self.language`, `self.selected_standards`, `self.compiler` and
`self.options`, and on success its `options`, `language` and `executable`
equal the original's — never the explicit empty list. -/
theorem mc_call_falsy_falls_back (probe : String → List (String × List (List String)))
    (cfg : MCConfig) (language : Option String) (std : Option Query)
    (options : Option (List String)) (executable : Option String)
    (hl : optStrFalsy language = true) (hs : optQueryFalsy std = true)
    (ho : optListFalsy options = true) (he : optStrFalsy executable = true)
    (hopts : cfg.options ≠ []) :
    mc_call probe cfg language std options executable
      = mc_init probe cfg.language
          (some (Query.list (cfg.selected_standards.map StdTerm.str)))
          cfg.compiler (some cfg.options)
    ∧ ∀ out, mc_call probe cfg language std options executable = Except.ok out →
        out.options = cfg.options ∧ out.language = cfg.language
          ∧ out.compiler = cfg.compiler := by
  have hlang : pyOrStr language cfg.language = cfg.language := by
    cases language with
    | none => rfl
    | some s =>
      simp only [optStrFalsy] at hl
      simp [pyOrStr, hl]
  have hstd : pyOrQuery std (Query.list (cfg.selected_standards.map StdTerm.str))
      = Query.list (cfg.selected_standards.map StdTerm.str) := by
    cases std with
    | none => rfl
    | some q =>
      simp only [optQueryFalsy] at hs
      simp [pyOrQuery, hs]
  have hexe : pyOrStr executable cfg.compiler = cfg.compiler := by
    cases executable with
    | none => rfl
    | some s =>
      simp only [optStrFalsy] at he
      simp [pyOrStr, he]
  have hopt : pyOrList options cfg.options = cfg.options := by
    cases options with
    | none => rfl
    | some l =>
      simp only [optListFalsy] at ho
      rw [List.isEmpty_iff] at ho
      subst ho
      simp [pyOrList, hopts]
  have hmain : mc_call probe cfg language std options executable
      = mc_init probe cfg.language
          (some (Query.list (cfg.selected_standards.map StdTerm.str)))
          cfg.compiler (some cfg.options) := by
    rw [mc_call, hlang, hstd, hexe, hopt]
  refine ⟨hmain, ?_⟩
  intro out hout
  rw [hmain, mc_init] at hout
  split at hout
  · cases hout
  · split at hout
    · cases hout
    · cases hout
      refine ⟨?_, rfl, rfl⟩
      simp [hopts]

/-- C10 (witness).  A configured instance with options `["-Wall"]` cloned
with `language=None`, `std=[]`, `options=[]`, `executable=""` is constructed
from the stored configuration. -/
theorem mc_call_falsy_falls_back_witness :
    mc_call (fun _ => [("c++", [["c++17"]])])
        { language := "c++", selected_standards := ["c++17"], options := ["-Wall"]
        , compiler := "/usr/bin/g++", standards := [("c++", [["c++17"]])] }
        none (some (Query.list [])) (some []) (some "")
      = mc_init (fun _ => [("c++", [["c++17"]])]) "c++"
          (some (Query.list (["c++17"].map StdTerm.str))) "/usr/bin/g++"
          (some ["-Wall"]) :=
  (mc_call_falsy_falls_back (fun _ => [("c++", [["c++17"]])])
    { language := "c++", selected_standards := ["c++17"], options := ["-Wall"]
    , compiler := "/usr/bin/g++", standards := [("c++", [["c++17"]])] }
    none (some (Query.list [])) (some []) (some "")
    rfl rfl rfl rfl (by simp)).1
